import Mathlib

/-!
Verification of the Neo4j Server client (bulbs/neo4jserver/client.py).

This file gives a shallow embedding of the data model and the operations of
the client: decoded JSON payloads are modelled as Python values (`PyVal`),
the result/response translation layer (`Neo4jResult`, `get_results`), the
URI identifier codec (`parse_id`, `parse_type`, `parse_index_type`), the
facade path builders and helpers. Fallible Python code is modelled with
`Except PyErr`; Python `None` and JSON null both decode to `PyVal.none`,
exactly as `json.loads` produces a single `None` for both.
-/

/-- The Python exceptions that the embedded code can raise. -/
inductive PyErr where
  | valueError
  | keyError
  | typeError
  | attributeError
  | nameError
  | indexError
deriving DecidableEq, Repr

/-- A decoded JSON payload as a Python value (the result of `json.loads`),
also covering plain Python `None`. Floats are not used by any claim and are
omitted. Dicts are association lists with (by Python invariant) unique keys. -/
inductive PyVal where
  | none : PyVal
  | bool : Bool → PyVal
  | int : Int → PyVal
  | str : String → PyVal
  | list : List PyVal → PyVal
  | dict : List (String × PyVal) → PyVal

abbrev PyDict := List (String × PyVal)

/-- Python truthiness (`bool(x)`): `None`, `False`, `0`, `""`, `[]`, `{}`
are falsy, everything else is truthy. -/
def truthy : PyVal → Bool
  | .none => false
  | .bool b => b
  | .int n => !(n == 0)
  | .str s => !(s == "")
  | .list xs => !xs.isEmpty
  | .dict kvs => !kvs.isEmpty

/-- Python `x is None`. -/
def isNone : PyVal → Bool
  | .none => true
  | _ => false

/-- Python `x == "null"` for the literal string sentinel. -/
def isNullStr : PyVal → Bool
  | .str s => s == "null"
  | _ => false

/-- Python `type(x) == list`. -/
def isList : PyVal → Bool
  | .list _ => true
  | _ => false

/-- First-match association-list lookup, the model of a Python dict read. -/
def dictLookup (kvs : PyDict) (k : String) : Option PyVal :=
  match kvs with
  | [] => Option.none
  | kv :: rest => if kv.1 = k then some kv.2 else dictLookup rest k

/-- Python `d[k] = v` on a dict: replace in place if the key exists,
otherwise append at the end (insertion order). -/
def dictAssign (kvs : PyDict) (k : String) (v : PyVal) : PyDict :=
  if kvs.any (fun kv => kv.1 = k) then
    kvs.map (fun kv => if kv.1 = k then (k, v) else kv)
  else kvs ++ [(k, v)]

/-- Python `d.get(k)`: the value, or `None` when the key is absent. -/
def dictGet (kvs : PyDict) (k : String) : PyVal :=
  (dictLookup kvs k).getD PyVal.none

/-- Python subscript `x[k]` with a string key: dict lookup (KeyError when
missing), TypeError on any non-dict value. -/
def getItem (v : PyVal) (k : String) : Except PyErr PyVal :=
  match v with
  | .dict kvs =>
    match dictLookup kvs k with
    | some x => .ok x
    | Option.none => .error .keyError
  | _ => .error .typeError

/-- Contiguous-substring test on character lists, the model of the Python
`in` operator on strings. -/
def isSubChars (needle : List Char) : List Char → Bool
  | [] => needle.isEmpty
  | c :: rest => needle.isPrefixOf (c :: rest) || isSubChars needle rest

/-- Python `k in x` for a string `k`: key test on dicts, membership on
lists, substring test on strings, TypeError otherwise. -/
def pyContains (v : PyVal) (k : String) : Except PyErr Bool :=
  match v with
  | .dict kvs => .ok (kvs.any (fun kv => kv.1 = k))
  | .list xs =>
    .ok (xs.any (fun x => match x with | .str s => s == k | _ => false))
  | .str s => .ok (isSubChars k.toList s.toList)
  | _ => .error .typeError

/-! ## Neo4jResult (client.py lines 41-190) -/

/-- `Neo4jResult._get_data`: the `data` field of a dict result, `None` for
a missing field or a non-dict result. -/
def get_data (result : PyVal) : PyVal :=
  match result with
  | .dict kvs => dictGet kvs "data"
  | _ => PyVal.none

/-- A `Neo4jResult`: the raw decoded object plus the derived property map,
as set up by `Neo4jResult.__init__`. The stored `Config` object is not
consulted by any of the embedded accessors and is omitted. -/
structure Neo4jResult where
  raw : PyVal
  data : PyVal

/-- `Neo4jResult.__init__`: store the raw result and derive `data`. -/
def Neo4jResult.make (result : PyVal) : Neo4jResult :=
  ⟨result, get_data result⟩

@[simp] theorem Neo4jResult.raw_make (result : PyVal) :
    (Neo4jResult.make result).raw = result := rfl

/-! ## Response results (client.py lines 277-300) -/

/-- The shape of the `results` attribute of a `Neo4jResponse` when it is
not `None`: a single result, or a sequence of results (the generator). -/
inductive ResultShape where
  | one : Neo4jResult → ResultShape
  | many : List Neo4jResult → ResultShape

/-- `Neo4jResponse.get_results`: list content gives one result per element
and `total_size = len(content)`; otherwise truthy content other than the
literal string sentinel `"null"` gives a single result wrapping the whole
content; everything else gives no results. -/
def get_results (content : PyVal) : Option ResultShape × Nat :=
  match content with
  | .list xs => (some (.many (xs.map Neo4jResult.make)), xs.length)
  | c =>
    if truthy c && !(isNullStr c) then (some (.one (Neo4jResult.make c)), 1)
    else (Option.none, 0)

/-- Number of results a `results` value holds. -/
def resultsCount : Option ResultShape → Nat
  | Option.none => 0
  | some (.one _) => 1
  | some (.many rs) => rs.length

/-! ## Identifier codec (client.py lines 171-190) -/

/-- Characters after the last separator: `s.rpartition(sep)[-1]`, the whole
string when the separator does not occur. -/
def lastSegChars (sep : Char) (cs : List Char) : List Char :=
  (cs.reverse.takeWhile (fun c => !(c == sep))).reverse

/-- Characters before the last separator: `s.rpartition(sep)[0]`, empty
when the separator does not occur. -/
def beforeLastChars (sep : Char) (cs : List Char) : List Char :=
  ((cs.reverse.dropWhile (fun c => !(c == sep))).drop 1).reverse

/-- Strip leading and trailing whitespace, as Python `int` does before
parsing a string argument. -/
def trimChars (cs : List Char) : List Char :=
  ((cs.dropWhile Char.isWhitespace).reverse.dropWhile Char.isWhitespace).reverse

/-- The base-10 value of a digit string. -/
def decVal (cs : List Char) : Nat :=
  cs.foldl (fun a c => a * 10 + (c.toNat - 48)) 0

/-- A non-empty all-digit character list. -/
def isDigitsNE (cs : List Char) : Bool :=
  !cs.isEmpty && cs.all Char.isDigit

/-- Python `int(s)` on a string: strip surrounding whitespace, allow one
optional sign, then require a non-empty run of decimal digits; anything
else raises ValueError. (Underscore digit grouping and non-ASCII decimal
digits, which CPython also accepts, do not occur in server URIs and are
not modelled.) -/
def pyInt (cs : List Char) : Except PyErr Int :=
  let t := trimChars cs
  if t.head? = some '-' then
    if isDigitsNE t.tail then .ok (-(decVal t.tail : Int)) else .error .valueError
  else if t.head? = some '+' then
    if isDigitsNE t.tail then .ok ((decVal t.tail : Int)) else .error .valueError
  else if isDigitsNE t then .ok ((decVal t : Int)) else .error .valueError

/-- `Neo4jResult._parse_id`: falsy URI (None or empty string) gives no ID;
otherwise take the part after the last slash (`uri.rpartition('/')[-1]`)
and parse it with `int`, propagating the ValueError of a non-numeric
segment. A truthy non-string has no `rpartition` attribute. -/
def parse_id (uri : PyVal) : Except PyErr (Option Int) :=
  match uri with
  | .str s =>
    if s = "" then .ok Option.none
    else
      match pyInt (lastSegChars '/' s.toList) with
      | .ok n => .ok (some n)
      | .error e => .error e
  | v => if truthy v then .error .attributeError else .ok Option.none

/-- `Neo4jResult._parse_type`: falsy URI gives no token; otherwise drop the
last path segment (`uri.rpartition('/')[0]`) and take the new last segment.
A truthy non-string has no `rpartition` attribute. -/
def parse_type (uri : PyVal) : Except PyErr (Option String) :=
  match uri with
  | .str s =>
    if s = "" then .ok Option.none
    else .ok (some (String.mk (lastSegChars '/' (beforeLastChars '/' s.toList))))
  | v => if truthy v then .error .attributeError else .ok Option.none

/-- Scheme characters of a URL, per the urllib scheme grammar. -/
def schemeChar (c : Char) : Bool :=
  c.isAlphanum || c == '+' || c == '-' || c == '.'

/-- Whether the URL starts with a `scheme:` prefix. -/
def hasScheme (cs : List Char) : Bool :=
  match cs with
  | [] => false
  | c :: _ =>
    c.isAlpha &&
      (match cs.dropWhile schemeChar with
       | ':' :: _ => true
       | _ => false)

/-- Drop the URL fragment: everything from the first `#` on. -/
def stripHash (cs : List Char) : List Char :=
  cs.takeWhile (fun c => !(c == '#'))

/-- Drop the URL query: everything from the first `?` on. -/
def stripQuery (cs : List Char) : List Char :=
  cs.takeWhile (fun c => !(c == '?'))

/-- Drop a leading `scheme:` prefix when one is present. -/
def stripScheme (cs : List Char) : List Char :=
  if hasScheme cs then (cs.dropWhile (fun c => !(c == ':'))).drop 1 else cs

/-- Drop a leading `//netloc` part when one is present. -/
def stripNetloc (cs : List Char) : List Char :=
  if cs.take 2 = ['/', '/'] then (cs.drop 2).dropWhile (fun c => !(c == '/'))
  else cs

/-- Model of `urlsplit(uri).path` for the http URLs the server issues:
drop the fragment and the query, then the `scheme:` prefix, then the
`//netloc` part; what remains is the path. -/
def urlsplitPath (cs : List Char) : List Char :=
  stripNetloc (stripScheme (stripQuery (stripHash cs)))

/-- Split a character list on a separator; like Python `str.split`, the
result is never empty and empty chunks are kept. -/
def splitOnChar (sep : Char) : List Char → List (List Char)
  | [] => [[]]
  | c :: cs =>
    match splitOnChar sep cs with
    | [] => [[]]
    | s :: ss => if c = sep then [] :: s :: ss else (c :: s) :: ss

/-- Join path segments with `/` separators; the left inverse of
`splitOnChar` on slash-free segments, used to quantify over URI shapes. -/
def joinSegs : List (List Char) → List Char
  | [] => []
  | [s] => s
  | s :: rest => s ++ '/' :: joinSegs rest

/-- Python `segments[-4]`: the fourth element from the end, an IndexError
when there are fewer than four elements. -/
def segAt4FromEnd (segs : List (List Char)) : Except PyErr (List Char) :=
  if h : 4 ≤ segs.length then .ok (segs.get ⟨segs.length - 4, by omega⟩)
  else .error .indexError

/-- `Neo4jResult._parse_index_type`: falsy URI gives no token; otherwise
split the URL path on `/` and take the fourth segment from the end
(`segments[-4]`), an IndexError when there are fewer than four segments.
A non-string URI is not a valid urlsplit argument. -/
def parse_index_type (uri : PyVal) : Except PyErr (Option String) :=
  match uri with
  | .str s =>
    if s = "" then .ok Option.none
    else
      match segAt4FromEnd (splitOnChar '/' (urlsplitPath s.toList)) with
      | .ok seg => .ok (some (String.mk seg))
      | .error e => .error e
  | v => if truthy v then .error .typeError else .ok Option.none

/-! ## Result accessors (client.py lines 67-95) -/

/-- Lookup in `self.type_map = dict(node="vertex", relationship="edge")`,
raising KeyError for any other key, including `None`. -/
def type_map_lookup (tok : Option String) : Except PyErr String :=
  if tok = some "node" then .ok "vertex"
  else if tok = some "relationship" then .ok "edge"
  else .error .keyError

/-- `Neo4jResult.get_uri`: `self.raw.get('self')`; a non-dict raw object
has no `get` attribute. -/
def get_uri (r : Neo4jResult) : Except PyErr PyVal :=
  match r.raw with
  | .dict kvs => .ok (dictGet kvs "self")
  | _ => .error .attributeError

/-- `Neo4jResult.get_type`: parse the kind token out of the element URI and
map it through `type_map`. -/
def get_type (r : Neo4jResult) : Except PyErr String :=
  match get_uri r with
  | .error e => .error e
  | .ok uri =>
    match parse_type uri with
    | .error e => .error e
    | .ok tok => type_map_lookup tok

/-! ## Index lookup post-processing (client.py lines 303-306, 685-699,
744-758, 1079-1086) -/

/-- `Neo4jResponse._set_index_name`: `self.results.raw['name'] = index_name`
on the single result; subscript assignment is a TypeError on a non-dict
raw object. Mutating `raw` does not recompute `data`. -/
def set_index_name (r : Neo4jResult) (index_name : String) :
    Except PyErr Neo4jResult :=
  match r.raw with
  | .dict kvs => .ok ⟨.dict (dictAssign kvs "name" (.str index_name)), r.data⟩
  | _ => .error .typeError

/-- `Neo4jClient._get_index_results`: when the content is truthy and the
index name is a member of the content, wrap `content[index_name]` as a
result; otherwise return `None`. -/
def get_index_results (index_name : String) (content : PyVal) :
    Except PyErr (Option Neo4jResult) :=
  if truthy content then
    match pyContains content index_name with
    | .error e => .error e
    | .ok true =>
      match getItem content index_name with
      | .error e => .error e
      | .ok v => .ok (some (Neo4jResult.make v))
    | .ok false => .ok Option.none
  else .ok Option.none

/-- The post-processing shared verbatim by `Neo4jClient.get_vertex_index`
and `Neo4jClient.get_edge_index`: the response for the map of all indices
is built (`get_results`), then `resp.results` is overwritten with the
single named index result (or `None`), `resp._set_index_name` is applied
when that result is truthy, and `resp.total_size` is left untouched. -/
def get_index_lookup (index_name : String) (content : PyVal) :
    Except PyErr (Option ResultShape × Nat) :=
  match get_index_results index_name content with
  | .error e => .error e
  | .ok Option.none => .ok (Option.none, (get_results content).2)
  | .ok (some r) =>
    match set_index_name r index_name with
    | .error e => .error e
    | .ok r2 => .ok (some (.one r2), (get_results content).2)

/-! ## Cypher post-processing (client.py lines 380-400) -/

/-- `Neo4jClient.cypher` post-processing of the freshly built response:

    resp.results = (result_class(result[0], config) for result in resp.results.data)
    resp.total_size = len(resp.results.data)

The first line reads `.data` off the current `results` (AttributeError on
`None` or on a generator), then calls `iter` on it eagerly (TypeError when
it is not iterable); per-row work is lazy and never runs here. The second
line then reads `.data` off the new value of `resp.results`, which is a
generator and has no such attribute, so it raises AttributeError whenever
the first line got that far. -/
def cypher_post (results : Option ResultShape) :
    Except PyErr (Option ResultShape × Nat) :=
  match results with
  | Option.none => .error .attributeError
  | some (.many _) => .error .attributeError
  | some (.one r) =>
    match r.data with
    | .list _ => .error .attributeError
    | .str _ => .error .attributeError
    | .dict _ => .error .attributeError
    | _ => .error .typeError

/-! ## Client facade path building (client.py lines 33-38, 776-943,
1070-1121) -/

/-- Modelled from the spec: `build_path` comes from `bulbs.utils`, which is
outside the client module; the spec says the facade "builds a path (joining
fixed resource segments with entity IDs)", so it is modelled as joining the
given segments with `/`. -/
def build_path (segments : List String) : String :=
  String.intercalate "/" segments

/-- Module-level resource path constant `vertex_path = "node"`. -/
def vertex_path : String := "node"

/-- Module-level resource path constant `edge_path = "relationship"`. -/
def edge_path : String := "relationship"

/-- Module-level resource path constant `index_path = "index"`. -/
def index_path : String := "index"

/-- Name resolution for a bare name read inside a method of client.py:
none of the index-membership methods binds `name` locally, so lookup falls
through to the module globals listed here and then to the builtins, which
have no `name` either; any other bare name therefore raises NameError. -/
def moduleGlobal (g : String) : Except PyErr String :=
  if g = "vertex_path" then .ok "node"
  else if g = "edge_path" then .ok "relationship"
  else if g = "index_path" then .ok "index"
  else if g = "gremlin_path" then .ok "ext/GremlinPlugin/graphdb/execute_script"
  else if g = "cypher_path" then .ok "ext/CypherPlugin/graphdb/execute_query"
  else .error .nameError

/-- `Neo4jClient.query_vertex` path: `build_path(index_path, "node", name)`;
the bare name `name` is undefined. The `index_name` parameter mirrors the
source signature. -/
def query_vertex_path (index_name : String) : Except PyErr String := do
  let ip ← moduleGlobal "index_path"
  let n ← moduleGlobal "name"
  pure (build_path [ip, "node", n])

/-- `Neo4jClient.remove_vertex` path:
`build_path("node", name, key, value, _id)`; `name` is undefined. -/
def remove_vertex_path (index_name _id key value : String) :
    Except PyErr String := do
  let n ← moduleGlobal "name"
  pure (build_path ["node", n, key, value, _id])

/-- `Neo4jClient.put_edge` path: `build_path(index_path, edge_path, name)`;
`name` is undefined. The `uri` params line before it succeeds. -/
def put_edge_path (index_name : String) : Except PyErr String := do
  let ip ← moduleGlobal "index_path"
  let ep ← moduleGlobal "edge_path"
  let n ← moduleGlobal "name"
  pure (build_path [ip, ep, n])

/-- `Neo4jClient.lookup_edge` path:
`build_path(index_path, edge_path, name, key, value)`; `name` is undefined.
`key` and `value` stand for the already URL-quoted arguments; quoting
happens before the path expression and does not affect the failure. -/
def lookup_edge_path (index_name key value : String) : Except PyErr String := do
  let ip ← moduleGlobal "index_path"
  let ep ← moduleGlobal "edge_path"
  let n ← moduleGlobal "name"
  pure (build_path [ip, ep, n, key, value])

/-- `Neo4jClient.query_edge` path: `build_path(index_path, edge_path, name)`;
`name` is undefined. -/
def query_edge_path (index_name : String) : Except PyErr String := do
  let ip ← moduleGlobal "index_path"
  let ep ← moduleGlobal "edge_path"
  let n ← moduleGlobal "name"
  pure (build_path [ip, ep, n])

/-- `Neo4jClient.remove_edge` path:
`build_path(edge_path, name, key, value, _id)`; `name` is undefined. -/
def remove_edge_path (index_name _id key value : String) :
    Except PyErr String := do
  let ep ← moduleGlobal "edge_path"
  let n ← moduleGlobal "name"
  pure (build_path [ep, n, key, value, _id])

/-! ## Null-value stripping (client.py lines 1072-1077) -/

/-- `Neo4jClient._remove_null_values`: keep exactly the pairs whose value
is not `None`. The comprehension iterates the dict keys and rebuilds a dict
with `dict(...)`; since Python dict keys are unique, that equals filtering
the association pairs in order. -/
def remove_null_values (data : PyDict) : PyDict :=
  data.filter (fun kv => !(isNone kv.2))

/-! ## Placeholder and entity path builders (client.py lines 1090-1121) -/

/-- Model of `re.search("^" ++ "\x7b.*\x7d" ++ "$", s)` returning the matched text:
the pattern matches when the string is an opening brace, a run of
non-newline characters, and a closing brace, optionally followed by one
trailing newline (`$` also matches just before a final newline, and `.`
never matches a newline); the match group excludes that trailing newline. -/
def placeholderChars (cs : List Char) : Option (List Char) :=
  match (if cs.getLast? = some '\n' then cs.dropLast else cs) with
  | '{' :: rest =>
    if rest.getLast? = some '}' && rest.dropLast.all (fun c => !(c == '\n')) then
      some ('{' :: rest)
    else Option.none
  | _ => Option.none

/-- `Neo4jClient._placeholder`: the matched placeholder token, or `None`
when the ID does not match the pattern. -/
def placeholder (s : String) : Option String :=
  (placeholderChars s.toList).map String.mk

/-- `Neo4jClient._build_vertex_path`: a matching ID contributes the matched
placeholder as the sole leading segment, any other ID contributes the
normal `node/<id>` prefix; extra args are appended either way. -/
def build_vertex_path (_id : String) (args : List String) : String :=
  match placeholder _id with
  | some p => build_path (p :: args)
  | Option.none => build_path (vertex_path :: _id :: args)

/-- Strip all trailing slashes, Python `s.rstrip("/")`. -/
def rstripSlash (s : String) : String :=
  String.mk ((s.toList.reverse.dropWhile (fun c => c == '/')).reverse)

/-- `Neo4jClient._build_vertex_uri`: a matching ID is returned verbatim;
otherwise the root URI (trailing slashes stripped) is joined with the
normal `node/<id>` path. -/
def build_vertex_uri (root_uri : String) (_id : String) (args : List String) :
    String :=
  match placeholder _id with
  | some p => p
  | Option.none =>
    rstripSlash root_uri ++ "/" ++ build_path (vertex_path :: _id :: args)

/-- `Neo4jClient._build_edge_path`:
`self._placeholder(_id) or build_path(edge_path, _id)`; a matched
placeholder is always a truthy (non-empty) string, so `or` selects it. -/
def build_edge_path (_id : String) : String :=
  match placeholder _id with
  | some p => p
  | Option.none => build_path [edge_path, _id]

/-! ## Helper lemmas -/

theorem dictLookup_eq_none (l : PyDict) (k : String)
    (h : k ∉ l.map Prod.fst) : dictLookup l k = Option.none := by
  induction l with
  | nil => rfl
  | cons kv rest ih =>
    simp only [List.map_cons, List.mem_cons, not_or] at h
    unfold dictLookup
    rw [if_neg (fun hk => h.1 hk.symm)]
    exact ih h.2

theorem get_results_not_list (c : PyVal) (hl : isList c = false) :
    get_results c = (if truthy c && !(isNullStr c)
      then (some (.one (Neo4jResult.make c)), 1) else (Option.none, 0)) := by
  cases c
  case list => simp [isList] at hl
  all_goals rfl

/-! ## Claim theorems -/

/-- Claim C1: a JSON array body of length N yields a sequence of exactly N
results, in the original order, each wrapping the corresponding array
element, and the total size is N. -/
theorem c1_array_results (xs : List PyVal) :
    get_results (.list xs) = (some (.many (xs.map Neo4jResult.make)), xs.length) ∧
    (xs.map Neo4jResult.make).map Neo4jResult.raw = xs ∧
    (xs.map Neo4jResult.make).length = xs.length := by
  refine ⟨rfl, ?_, by simp⟩
  have hcomp : Neo4jResult.raw ∘ Neo4jResult.make = id := funext (fun _ => rfl)
  rw [List.map_map, hcomp, List.map_id]

/-- Claim C2, counterexample: the decoded content `False` (the body of a
script returning a boolean) is present — it is not the absent value `None`
— it is not a JSON array and not the literal string sentinel, yet the
response carries no result and a total size of 0, where the claim promises
a single result and total size 1. -/
theorem c2_counterexample :
    (PyVal.bool false ≠ PyVal.none) ∧
    isList (PyVal.bool false) = false ∧
    isNullStr (PyVal.bool false) = false ∧
    get_results (PyVal.bool false) = (Option.none, 0) :=
  ⟨fun h => PyVal.noConfusion h, rfl, rfl, rfl⟩

/-- Claim C2, amended: for non-list content the one-result branch fires
exactly when the content is truthy (Python truth test, so `False`, `0`,
`""` and `{}` count as absent) and differs from the literal string
sentinel; all other content yields no result and total size 0. -/
theorem c2_truthiness (c : PyVal) (hl : isList c = false) :
    (truthy c = true → isNullStr c = false →
       get_results c = (some (.one (Neo4jResult.make c)), 1)) ∧
    ((truthy c = false ∨ isNullStr c = true) →
       get_results c = (Option.none, 0)) := by
  constructor
  · intro ht hn
    rw [get_results_not_list c hl, ht, hn]
    rfl
  · intro hf
    rw [get_results_not_list c hl]
    rcases hf with hf | hn
    · rw [hf]
      rfl
    · rw [hn]
      simp

/-- Witness for the amended C2 theorem at concrete content values. -/
theorem c2_truthiness_witness :
    get_results (.str "x") = (some (.one (Neo4jResult.make (.str "x"))), 1) ∧
    get_results (.dict []) = (Option.none, 0) :=
  ⟨(c2_truthiness (.str "x") rfl).1 rfl rfl,
   (c2_truthiness (.dict []) rfl).2 (Or.inl rfl)⟩

/-- Claim C3, counterexample: looking up an index name that is absent from
a non-empty index map leaves `results = None` while `total_size` keeps the
value 1 it got when the map was decoded, so the post-processed response
violates the claimed count invariant. -/
theorem c3_counterexample :
    get_index_lookup "people" (.dict [("other", .dict [("a", .str "b")])]) =
      .ok (Option.none, 1) ∧
    resultsCount Option.none = 0 :=
  ⟨rfl, rfl⟩

/-- Claim C3, amended: at construction every response satisfies the
invariant — `results` is `None`, one result, or a sequence, and
`total_size` equals the number of results it holds; the index-lookup
post-processing keeps the shape part (results stay `None` or a single
result) but leaves `total_size` at its pre-processing value, which no
longer matches when the named index is missing from a non-empty map. -/
theorem c3_results_invariant :
    (∀ c, resultsCount (get_results c).1 = (get_results c).2) ∧
    (∀ index_name c out, get_index_lookup index_name c = .ok out →
       out.1 = Option.none ∨ ∃ r, out.1 = some (.one r)) := by
  constructor
  · intro c
    cases c
    case list xs => simp [get_results, resultsCount]
    all_goals
      rw [get_results_not_list _ (by rfl)]
      split <;> rfl
  · intro index_name c out h
    unfold get_index_lookup at h
    split at h
    · exact absurd h (by simp)
    · simp only [Except.ok.injEq] at h
      rw [← h]
      exact Or.inl rfl
    · split at h
      · exact absurd h (by simp)
      · simp only [Except.ok.injEq] at h
        rw [← h]
        exact Or.inr ⟨_, rfl⟩

/-- Witness for the amended C3 theorem: the shape conclusion instantiated
for an empty index map, whose lookup response is `(None, 0)`. -/
theorem c3_results_invariant_witness :
    (Option.none : Option ResultShape) = Option.none ∨
    ∃ r, (Option.none : Option ResultShape) = some (.one r) :=
  c3_results_invariant.2 "people" (.dict []) (Option.none, 0) rfl

/-- Claim C4: the six index-membership methods `query_vertex`,
`remove_vertex`, `put_edge`, `lookup_edge`, `query_edge` and `remove_edge`
never build a path from their `index_name` argument — each path expression
reads the undefined bare name `name` and raises NameError for every input. -/
theorem c4_index_membership_name_error :
    (∀ index_name, query_vertex_path index_name = .error .nameError) ∧
    (∀ index_name _id key value,
       remove_vertex_path index_name _id key value = .error .nameError) ∧
    (∀ index_name, put_edge_path index_name = .error .nameError) ∧
    (∀ index_name key value,
       lookup_edge_path index_name key value = .error .nameError) ∧
    (∀ index_name, query_edge_path index_name = .error .nameError) ∧
    (∀ index_name _id key value,
       remove_edge_path index_name _id key value = .error .nameError) :=
  ⟨fun _ => rfl, fun _ _ _ _ => rfl, fun _ => rfl, fun _ _ _ => rfl,
   fun _ => rfl, fun _ _ _ _ => rfl⟩

/-- Claim C5: the cypher post-processing step never reaches a re-derived
`total_size` — it raises for every possible `results` value, and in
particular it raises AttributeError on a well-formed cypher response
(columns plus single-element rows), because line 399 reads `.data` off the
generator that line 398 just stored in `resp.results`. -/
theorem c5_cypher_total_size_bug :
    (∀ results, ∃ e, cypher_post results = .error e) ∧
    cypher_post (get_results (.dict [("columns", .list [.str "n"]),
        ("data", .list [.list
          [.dict [("self", .str "http://localhost:7474/db/data/node/1")]]])])).1
      = .error .attributeError := by
  constructor
  · intro results
    cases results with
    | none => exact ⟨_, rfl⟩
    | some s =>
      cases s with
      | one r =>
        obtain ⟨raw, data⟩ := r
        cases data <;> exact ⟨_, rfl⟩
      | many rs => exact ⟨_, rfl⟩
  · rfl

/-- Claim C9: null stripping keeps exactly the pairs whose value is not
`None`: membership is filtered on the null test alone, per-key lookup is
unchanged except that null-valued keys disappear, and the surviving pairs
keep their original relative order (the output is a sublist of the input). -/
theorem c9_remove_null (data : PyDict) (k : String) (v : PyVal)
    (hnd : (data.map Prod.fst).Nodup) :
    ((k, v) ∈ remove_null_values data ↔ ((k, v) ∈ data ∧ isNone v = false)) ∧
    (dictLookup (remove_null_values data) k =
       match dictLookup data k with
       | some w => if isNone w then Option.none else some w
       | Option.none => Option.none) ∧
    (remove_null_values data).Sublist data := by
  refine ⟨?_, ?_, List.filter_sublist data⟩
  · simp [remove_null_values, List.mem_filter, Bool.not_eq_true']
  · induction data with
    | nil => rfl
    | cons kv rest ih =>
      obtain ⟨k0, v0⟩ := kv
      simp only [List.map_cons, List.nodup_cons] at hnd
      by_cases hk : k0 = k
      · subst hk
        by_cases hv : isNone v0 = true
        · have hout : dictLookup (remove_null_values rest) k0 = Option.none := by
            apply dictLookup_eq_none
            intro hmem
            exact hnd.1 (((List.filter_sublist rest).map Prod.fst).subset hmem)
          unfold remove_null_values at hout ⊢
          rw [List.filter_cons]
          simp [hv, dictLookup, hout]
        · simp [remove_null_values, List.filter_cons, hv, dictLookup]
      · have ih2 := ih hnd.2
        by_cases hv : isNone v0 = true
        · simpa [remove_null_values, List.filter_cons, hv, dictLookup, hk] using ih2
        · simpa [remove_null_values, List.filter_cons, hv, dictLookup, hk] using ih2

/-- Witness for the C9 theorem on a concrete mixed property map: the
null-valued key vanishes while the falsy values 0, False and the empty
string survive. -/
theorem c9_remove_null_witness :
    ((("zero", PyVal.int 0) ∈ remove_null_values
        [("a", PyVal.str "alice"), ("age", PyVal.none), ("zero", PyVal.int 0),
         ("flag", PyVal.bool false), ("e", PyVal.str "")]) ↔
      ((("zero", PyVal.int 0) ∈
        [("a", PyVal.str "alice"), ("age", PyVal.none), ("zero", PyVal.int 0),
         ("flag", PyVal.bool false), ("e", PyVal.str "")]) ∧
        isNone (PyVal.int 0) = false)) ∧
    (dictLookup (remove_null_values
        [("a", PyVal.str "alice"), ("age", PyVal.none), ("zero", PyVal.int 0),
         ("flag", PyVal.bool false), ("e", PyVal.str "")]) "zero" =
       match dictLookup
        [("a", PyVal.str "alice"), ("age", PyVal.none), ("zero", PyVal.int 0),
         ("flag", PyVal.bool false), ("e", PyVal.str "")] "zero" with
       | some w => if isNone w then Option.none else some w
       | Option.none => Option.none) ∧
    (remove_null_values
        [("a", PyVal.str "alice"), ("age", PyVal.none), ("zero", PyVal.int 0),
         ("flag", PyVal.bool false), ("e", PyVal.str "")]).Sublist
      [("a", PyVal.str "alice"), ("age", PyVal.none), ("zero", PyVal.int 0),
       ("flag", PyVal.bool false), ("e", PyVal.str "")] :=
  c9_remove_null
    [("a", PyVal.str "alice"), ("age", PyVal.none), ("zero", PyVal.int 0),
     ("flag", PyVal.bool false), ("e", PyVal.str "")]
    "zero" (PyVal.int 0) (by decide)

/-! ## Lemmas for the identifier codec claims -/

theorem char_digit_not_ws (c : Char) (h : c.isDigit = true) :
    c.isWhitespace = false := by
  by_contra hw
  simp only [Bool.not_eq_false] at hw
  simp only [Char.isWhitespace, Bool.or_eq_true, decide_eq_true_eq] at hw
  rcases hw with ((h1 | h1) | h1) | h1 <;> subst h1 <;> exact absurd h (by decide)

theorem char_digit_ne (c d : Char) (h : c.isDigit = true)
    (hd : d.isDigit = false) : ¬ c = d := by
  intro he
  subst he
  rw [h] at hd
  exact Bool.noConfusion hd

theorem dropWhile_ws_digits (cs : List Char) (h : cs.all Char.isDigit = true) :
    cs.dropWhile Char.isWhitespace = cs := by
  cases cs with
  | nil => rfl
  | cons c rest =>
    have hc : c.isDigit = true := by
      simp only [List.all_cons, Bool.and_eq_true] at h
      exact h.1
    rw [List.dropWhile_cons_of_neg]
    rw [char_digit_not_ws c hc]
    exact Bool.false_ne_true

theorem trimChars_digits (cs : List Char) (h : cs.all Char.isDigit = true) :
    trimChars cs = cs := by
  unfold trimChars
  rw [dropWhile_ws_digits cs h, dropWhile_ws_digits cs.reverse (by simpa using h),
    List.reverse_reverse]

theorem pyInt_digits (cs : List Char) (h : isDigitsNE cs = true) :
    pyInt cs = .ok ((decVal cs : Int)) := by
  have hparts : !cs.isEmpty = true ∧ cs.all Char.isDigit = true := by
    simpa [isDigitsNE] using h
  have hall : cs.all Char.isDigit = true := hparts.2
  have hne : cs ≠ [] := by
    have h1 := hparts.1
    simpa [List.isEmpty_iff] using h1
  obtain ⟨c, rest, rfl⟩ : ∃ c rest, cs = c :: rest := by
    cases cs with
    | nil => exact absurd rfl hne
    | cons c rest => exact ⟨c, rest, rfl⟩
  have hc : c.isDigit = true := by
    simp only [List.all_cons, Bool.and_eq_true] at hall
    exact hall.1
  unfold pyInt
  rw [trimChars_digits _ hall]
  simp only [List.head?_cons, List.tail_cons, Option.some.injEq]
  rw [if_neg (char_digit_ne c '-' hc (by decide)),
    if_neg (char_digit_ne c '+' hc (by decide)), if_pos h]

/-- Claim C6: `_parse_id` maps an absent URI (`None` or the empty string)
to an absent ID; a non-empty URI whose trailing slash-separated segment is
a non-empty run of decimal digits to that segment's base-10 value; and a
non-empty URI whose trailing segment `int` rejects to the propagated
ValueError. -/
theorem c6_parse_id_contract :
    parse_id PyVal.none = .ok Option.none ∧
    parse_id (.str "") = .ok Option.none ∧
    (∀ s : String, s ≠ "" → isDigitsNE (lastSegChars '/' s.toList) = true →
       parse_id (.str s) = .ok (some ((decVal (lastSegChars '/' s.toList) : Int)))) ∧
    (∀ s : String, s ≠ "" → ∀ e, pyInt (lastSegChars '/' s.toList) = .error e →
       parse_id (.str s) = .error e) := by
  refine ⟨rfl, rfl, ?_, ?_⟩
  · intro s hs hd
    simp only [parse_id]
    rw [if_neg hs, pyInt_digits _ hd]
  · intro s hs e he
    simp only [parse_id]
    rw [if_neg hs, he]

/-- Witness for the C6 theorem: a node locator with numeric suffix parses
to 42, and a locator with a non-numeric suffix propagates ValueError. -/
theorem c6_parse_id_contract_witness :
    parse_id (.str "http://localhost:7474/db/data/node/42") =
      .ok (some ((decVal (lastSegChars '/'
        ("http://localhost:7474/db/data/node/42").toList) : Int))) ∧
    (decVal (lastSegChars '/'
      ("http://localhost:7474/db/data/node/42").toList) : Int) = 42 ∧
    parse_id (.str "http://localhost:7474/db/data/node/abc") =
      .error .valueError :=
  ⟨c6_parse_id_contract.2.2.1 "http://localhost:7474/db/data/node/42"
     (by decide) rfl,
   rfl,
   c6_parse_id_contract.2.2.2 "http://localhost:7474/db/data/node/abc"
     (by decide) .valueError rfl⟩

/-- Claim C8: `get_type` maps the parsed token "node" to "vertex" and
"relationship" to "edge", and raises KeyError (the `type_map` dict lookup)
for every other token, including the absent one — it never defaults. -/
theorem c8_get_type_mapping (r : Neo4jResult) (u : PyVal) (tok : Option String)
    (h1 : get_uri r = .ok u) (h2 : parse_type u = .ok tok) :
    (tok = some "node" → get_type r = .ok "vertex") ∧
    (tok = some "relationship" → get_type r = .ok "edge") ∧
    (tok ≠ some "node" → tok ≠ some "relationship" →
       get_type r = .error .keyError) := by
  have key : get_type r = type_map_lookup tok := by
    simp only [get_type, h1, h2]
  refine ⟨fun hn => ?_, fun hr => ?_, fun hn hr => ?_⟩
  · rw [key, hn]
    rfl
  · rw [key, hr]
    rfl
  · rw [key]
    unfold type_map_lookup
    rw [if_neg hn, if_neg hr]

/-- Witness for the C8 theorem: a node locator yields "vertex", and a
locator with any other kind token raises KeyError. -/
theorem c8_get_type_mapping_witness :
    get_type (Neo4jResult.make (.dict [("self",
      .str "http://localhost:7474/db/data/node/42")])) = .ok "vertex" ∧
    get_type (Neo4jResult.make (.dict [("self",
      .str "http://localhost:7474/db/data/foo/42")])) = .error .keyError :=
  ⟨(c8_get_type_mapping
      (Neo4jResult.make (.dict [("self",
        .str "http://localhost:7474/db/data/node/42")]))
      (.str "http://localhost:7474/db/data/node/42") (some "node")
      rfl rfl).1 rfl,
   (c8_get_type_mapping
      (Neo4jResult.make (.dict [("self",
        .str "http://localhost:7474/db/data/foo/42")]))
      (.str "http://localhost:7474/db/data/foo/42") (some "foo")
      rfl rfl).2.2 (by decide) (by decide)⟩

/-! ## Lemmas for the placeholder claim -/

theorem placeholderChars_shape (cs ps : List Char)
    (h : placeholderChars cs = some ps) :
    ps.head? = some '{' ∧ ps.getLast? = some '}' := by
  unfold placeholderChars at h
  split at h
  · split at h
    · rename_i hcond
      simp only [Option.some.injEq] at h
      subst h
      refine ⟨rfl, ?_⟩
      rename_i rest heq
      have h3 : rest.getLast? = some '}' ∧
          rest.dropLast.all (fun c => !(c == '\n')) = true := by
        simpa using hcond
      have h1 := h3.1
      cases rest with
      | nil => simp at h1
      | cons a l =>
        rw [List.getLast?_cons_cons]
        exact h1
    · exact absurd h (by simp)
  · exact absurd h (by simp)

theorem placeholderChars_braced (core : List Char)
    (hcore : core.all (fun c => !(c == '\n')) = true) :
    placeholderChars (('{' :: core) ++ ['}']) = some (('{' :: core) ++ ['}']) := by
  unfold placeholderChars
  rw [List.getLast?_concat, if_neg (by simp), List.cons_append]
  simp [hcore, List.dropLast_concat, List.getLast?_concat]

theorem placeholder_braced (core : List Char)
    (hcore : core.all (fun c => !(c == '\n')) = true) :
    placeholder (String.mk ('{' :: core ++ ['}'])) =
      some (String.mk ('{' :: core ++ ['}'])) := by
  unfold placeholder
  have ht : (String.mk ('{' :: core ++ ['}'])).toList = ('{' :: core) ++ ['}'] := rfl
  rw [ht, placeholderChars_braced core hcore]
  rfl

/-- Claim C10, counterexample: the ID `"{a\nb}"` (written out as its
character list) begins with an opening brace and ends with a closing
brace, yet the pattern does not match it — `.` never crosses the embedded
newline — so both path builders fall back to the normal `resource/id`
construction instead of emitting the ID verbatim. -/
theorem c10_counterexample :
    (String.mk ['{', 'a', '\n', 'b', '}']).toList.head? = some '{' ∧
    (String.mk ['{', 'a', '\n', 'b', '}']).toList.getLast? = some '}' ∧
    placeholder (String.mk ['{', 'a', '\n', 'b', '}']) = Option.none ∧
    build_vertex_path (String.mk ['{', 'a', '\n', 'b', '}']) [] =
      "node/" ++ String.mk ['{', 'a', '\n', 'b', '}'] ∧
    build_edge_path (String.mk ['{', 'a', '\n', 'b', '}']) =
      "relationship/" ++ String.mk ['{', 'a', '\n', 'b', '}'] := by
  refine ⟨rfl, rfl, rfl, by decide, by decide⟩

/-- Claim C10, amended: an ID matching the placeholder pattern — opening
brace, newline-free core, closing brace, optionally one trailing newline —
makes the vertex path builder, the vertex URI builder and the edge path
builder emit the matched placeholder verbatim in place of the normal
`resource/id` construction; any other ID takes the normal construction;
and every newline-free brace-delimited ID does match, with the placeholder
equal to the ID itself. -/
theorem c10_placeholder_routing (s : String) (args : List String) :
    (∀ p, placeholder s = some p →
       build_vertex_path s args = build_path (p :: args) ∧
       build_edge_path s = p ∧
       (∀ root, build_vertex_uri root s args = p) ∧
       p.toList.head? = some '{' ∧ p.toList.getLast? = some '}') ∧
    (placeholder s = Option.none →
       build_vertex_path s args = build_path (vertex_path :: s :: args) ∧
       build_edge_path s = build_path [edge_path, s] ∧
       (∀ root, build_vertex_uri root s args =
          rstripSlash root ++ "/" ++ build_path (vertex_path :: s :: args))) ∧
    (∀ core : List Char, core.all (fun c => !(c == '\n')) = true →
       placeholder (String.mk ('{' :: core ++ ['}'])) =
         some (String.mk ('{' :: core ++ ['}']))) := by
  refine ⟨?_, ?_, fun core hcore => placeholder_braced core hcore⟩
  · intro p hp
    obtain ⟨cs, hcs, rfl⟩ :
        ∃ cs, placeholderChars s.toList = some cs ∧ p = String.mk cs := by
      unfold placeholder at hp
      cases hpc : placeholderChars s.toList with
      | none =>
        rw [hpc] at hp
        exact absurd hp (by simp)
      | some cs =>
        rw [hpc] at hp
        simp only [Option.map_some', Option.some.injEq] at hp
        exact ⟨cs, rfl, hp.symm⟩
    have hshape := placeholderChars_shape _ _ hcs
    refine ⟨?_, ?_, ?_, hshape.1, hshape.2⟩
    · unfold build_vertex_path
      rw [hp]
    · unfold build_edge_path
      rw [hp]
    · intro root
      unfold build_vertex_uri
      rw [hp]
  · intro h
    refine ⟨?_, ?_, fun root => ?_⟩
    · unfold build_vertex_path
      rw [h]
    · unfold build_edge_path
      rw [h]
    · unfold build_vertex_uri
      rw [h]

/-- Witness for the amended C10 theorem at the placeholder ID `"{ref}"`. -/
theorem c10_placeholder_routing_witness :
    build_vertex_path "{ref}" ["properties"] =
      build_path ["{ref}", "properties"] ∧
    build_edge_path "{ref}" = "{ref}" ∧
    build_vertex_uri "http://localhost:7474/db/data/" "{ref}" ["properties"] =
      "{ref}" :=
  ⟨((c10_placeholder_routing "{ref}" ["properties"]).1 "{ref}" rfl).1,
   ((c10_placeholder_routing "{ref}" ["properties"]).1 "{ref}" rfl).2.1,
   ((c10_placeholder_routing "{ref}" ["properties"]).1 "{ref}" rfl).2.2.1
     "http://localhost:7474/db/data/"⟩

/-! ## Lemmas for the index-type codec claim -/

theorem takeWhile_all_eq (p : Char → Bool) (a : List Char)
    (h : ∀ c ∈ a, p c = true) : a.takeWhile p = a := by
  induction a with
  | nil => rfl
  | cons c rest ih =>
    rw [List.takeWhile_cons_of_pos (h c (by simp))]
    rw [ih (fun x hx => h x (by simp [hx]))]

theorem dropWhile_append_all (p : Char → Bool) (a b : List Char)
    (h : ∀ c ∈ a, p c = true) : (a ++ b).dropWhile p = b.dropWhile p := by
  induction a with
  | nil => rfl
  | cons c rest ih =>
    rw [List.cons_append, List.dropWhile_cons_of_pos (h c (by simp))]
    exact ih (fun x hx => h x (by simp [hx]))

theorem splitOnChar_cons (sep c : Char) (cs : List Char) :
    splitOnChar sep (c :: cs) =
      (match splitOnChar sep cs with
       | [] => [[]]
       | s :: ss => if c = sep then [] :: s :: ss else (c :: s) :: ss) := rfl

theorem splitOnChar_ne_nil (sep : Char) (cs : List Char) :
    splitOnChar sep cs ≠ [] := by
  induction cs with
  | nil => simp [splitOnChar]
  | cons c rest ih =>
    rw [splitOnChar_cons]
    cases hs : splitOnChar sep rest with
    | nil => simp
    | cons s ss =>
      by_cases hc : c = sep <;> simp [hc]

theorem splitOnChar_nosep (sep : Char) (a : List Char)
    (ha : ∀ c ∈ a, ¬ c = sep) : splitOnChar sep a = [a] := by
  induction a with
  | nil => rfl
  | cons c rest ih =>
    rw [splitOnChar_cons, ih (fun x hx => ha x (by simp [hx]))]
    simp [ha c (by simp)]

theorem splitOnChar_append (sep : Char) (a b : List Char)
    (ha : ∀ c ∈ a, ¬ c = sep) :
    splitOnChar sep (a ++ sep :: b) = a :: splitOnChar sep b := by
  induction a with
  | nil =>
    show splitOnChar sep (sep :: b) = [] :: splitOnChar sep b
    rw [splitOnChar_cons]
    cases hs : splitOnChar sep b with
    | nil => exact absurd hs (splitOnChar_ne_nil sep b)
    | cons s ss => simp
  | cons c rest ih =>
    show splitOnChar sep (c :: (rest ++ sep :: b)) =
      (c :: rest) :: splitOnChar sep b
    rw [splitOnChar_cons, ih (fun x hx => ha x (by simp [hx]))]
    simp [ha c (by simp)]

theorem joinSegs_cons_cons (s t : List Char) (rest : List (List Char)) :
    joinSegs (s :: t :: rest) = s ++ '/' :: joinSegs (t :: rest) := rfl

theorem mem_joinSegs (segs : List (List Char)) (c : Char)
    (hc : c ∈ joinSegs segs) : c = '/' ∨ ∃ s ∈ segs, c ∈ s := by
  induction segs with
  | nil => simp [joinSegs] at hc
  | cons s rest ih =>
    cases rest with
    | nil => exact Or.inr ⟨s, by simp, by simpa [joinSegs] using hc⟩
    | cons t rest2 =>
      rw [joinSegs_cons_cons] at hc
      rcases List.mem_append.mp hc with h | h
      · exact Or.inr ⟨s, by simp, h⟩
      · rcases List.mem_cons.mp h with h | h
        · exact Or.inl h
        · rcases ih h with h | ⟨s2, hs2, hcs2⟩
          · exact Or.inl h
          · exact Or.inr ⟨s2, by simp [hs2], hcs2⟩

theorem splitOnChar_joinSegs (segs : List (List Char)) (hne : segs ≠ [])
    (h : ∀ s ∈ segs, ∀ c ∈ s, ¬ c = '/') :
    splitOnChar '/' (joinSegs segs) = segs := by
  induction segs with
  | nil => exact absurd rfl hne
  | cons s rest ih =>
    cases rest with
    | nil =>
      have hj : joinSegs [s] = s := rfl
      rw [hj]
      exact splitOnChar_nosep '/' s (h s (by simp))
    | cons t rest2 =>
      rw [joinSegs_cons_cons, splitOnChar_append '/' s _ (h s (by simp))]
      rw [ih (by simp) (fun s2 hs2 c hc => h s2 (by simp [hs2]) c hc)]

theorem get_append_at_len (pre : List (List Char)) (x : List Char)
    (tail : List (List Char)) :
    ∀ h, (pre ++ x :: tail).get ⟨pre.length, h⟩ = x := by
  induction pre with
  | nil => intro h; rfl
  | cons p ps ih => intro h; exact ih _

theorem get_skip_one (pre : List (List Char)) (x : List Char)
    (tail : List (List Char)) (i : Nat) (hi : i = pre.length + 1) :
    ∀ h, ([] :: (pre ++ x :: tail)).get ⟨i, h⟩ = x := by
  subst hi
  intro h
  exact get_append_at_len pre x tail _

theorem segAt4FromEnd_eq (pre : List (List Char)) (x idx2 kseg vseg : List Char) :
    segAt4FromEnd ([] :: (pre ++ [x, idx2, kseg, vseg])) = .ok x := by
  unfold segAt4FromEnd
  have hlen : 4 ≤ ([] :: (pre ++ [x, idx2, kseg, vseg])).length := by
    simp only [List.length_cons, List.length_append, List.length_nil]
    omega
  rw [dif_pos hlen]
  have hidx : ([] :: (pre ++ [x, idx2, kseg, vseg])).length - 4 =
      pre.length + 1 := by
    simp only [List.length_cons, List.length_append, List.length_nil]
    omega
  rw [get_skip_one pre x [idx2, kseg, vseg] _ hidx]

theorem urlsplitPath_http (host tail : List Char)
    (hhost : ∀ c ∈ host, ¬ c = '/' ∧ ¬ c = '#' ∧ ¬ c = '?')
    (htail : ∀ c ∈ tail, ¬ c = '#' ∧ ¬ c = '?') :
    urlsplitPath ("http://".toList ++ host ++ '/' :: tail) = '/' :: tail := by
  have hfull : "http://".toList ++ host ++ '/' :: tail =
      'h' :: 't' :: 't' :: 'p' :: ':' :: '/' :: '/' :: (host ++ '/' :: tail) := by
    have hlit : "http://".toList = ['h', 't', 't', 'p', ':', '/', '/'] := rfl
    rw [hlit]
    simp [List.append_assoc]
  rw [hfull]
  have hchars : ∀ c ∈ 'h' :: 't' :: 't' :: 'p' :: ':' :: '/' :: '/' ::
      (host ++ '/' :: tail), ¬ c = '#' ∧ ¬ c = '?' := by
    intro c hc
    simp only [List.mem_cons, List.mem_append] at hc
    rcases hc with rfl | rfl | rfl | rfl | rfl | rfl | rfl | hc | rfl | hc
    · exact ⟨by decide, by decide⟩
    · exact ⟨by decide, by decide⟩
    · exact ⟨by decide, by decide⟩
    · exact ⟨by decide, by decide⟩
    · exact ⟨by decide, by decide⟩
    · exact ⟨by decide, by decide⟩
    · exact ⟨by decide, by decide⟩
    · exact ⟨(hhost c hc).2.1, (hhost c hc).2.2⟩
    · exact ⟨by decide, by decide⟩
    · exact htail c hc
  have h1 : stripHash ('h' :: 't' :: 't' :: 'p' :: ':' :: '/' :: '/' ::
      (host ++ '/' :: tail)) =
      'h' :: 't' :: 't' :: 'p' :: ':' :: '/' :: '/' :: (host ++ '/' :: tail) := by
    apply takeWhile_all_eq
    intro c hc
    have := (hchars c hc).1
    simp [this]
  have h2 : stripQuery ('h' :: 't' :: 't' :: 'p' :: ':' :: '/' :: '/' ::
      (host ++ '/' :: tail)) =
      'h' :: 't' :: 't' :: 'p' :: ':' :: '/' :: '/' :: (host ++ '/' :: tail) := by
    apply takeWhile_all_eq
    intro c hc
    have := (hchars c hc).2
    simp [this]
  have h3 : stripScheme ('h' :: 't' :: 't' :: 'p' :: ':' :: '/' :: '/' ::
      (host ++ '/' :: tail)) = '/' :: '/' :: (host ++ '/' :: tail) := rfl
  have h4 : stripNetloc ('/' :: '/' :: (host ++ '/' :: tail)) = '/' :: tail := by
    unfold stripNetloc
    have hc2 : List.take 2 ('/' :: '/' :: (host ++ '/' :: tail)) = ['/', '/'] := rfl
    rw [if_pos hc2]
    show List.dropWhile (fun c => !(c == '/')) (host ++ '/' :: tail) = '/' :: tail
    rw [dropWhile_append_all _ host _ (fun c hc => by simp [(hhost c hc).1])]
    rw [List.dropWhile_cons_of_neg (by decide)]
  unfold urlsplitPath
  rw [h1, h2, h3, h4]

/-- Claim C7, counterexample: on the lookup-style locator
`.../index/node/idx/key/val/7` the parser's fourth-from-the-end segment is
`"idx"` — the index name, not the resource-kind token — and `"idx"` is not
a key of `type_map`, so it is not "the correct kind token". -/
theorem c7_counterexample :
    parse_index_type
        (.str "http://localhost:7474/db/data/index/node/idx/key/val/7") =
      .ok (some "idx") ∧
    type_map_lookup (some "idx") = .error .keyError ∧
    ("idx" : String) ≠ "node" := by
  refine ⟨rfl, rfl, by decide⟩

/-- Claim C7, amended: the parser extracts the fourth path segment counting
from the end. On every index-template URI — any http URL whose path ends
with the four segments `kind / indexname / {key} / {value}` — that segment
is the resource-kind token `kind`, for any host and any path prefix; on a
lookup locator ending `indexname / key / value / id` it is the index name
instead (see the counterexample). -/
theorem c7_index_type_position (host : List Char) (pre : List (List Char))
    (kind idxname : List Char)
    (hhost : ∀ c ∈ host, ¬ c = '/' ∧ ¬ c = '#' ∧ ¬ c = '?')
    (hpre : ∀ s ∈ pre, ∀ c ∈ s, ¬ c = '/' ∧ ¬ c = '#' ∧ ¬ c = '?')
    (hkind : ∀ c ∈ kind, ¬ c = '/' ∧ ¬ c = '#' ∧ ¬ c = '?')
    (hname : ∀ c ∈ idxname, ¬ c = '/' ∧ ¬ c = '#' ∧ ¬ c = '?') :
    parse_index_type (.str (String.mk ("http://".toList ++ host ++ '/' ::
        joinSegs (pre ++ [kind, idxname, "{key}".toList, "{value}".toList])))) =
      .ok (some (String.mk kind)) := by
  have hkseg : ∀ c ∈ ("{key}".toList : List Char),
      ¬ c = '/' ∧ ¬ c = '#' ∧ ¬ c = '?' := by decide
  have hvseg : ∀ c ∈ ("{value}".toList : List Char),
      ¬ c = '/' ∧ ¬ c = '#' ∧ ¬ c = '?' := by decide
  have hsegs : ∀ s ∈ pre ++ [kind, idxname, "{key}".toList, "{value}".toList],
      ∀ c ∈ s, ¬ c = '/' ∧ ¬ c = '#' ∧ ¬ c = '?' := by
    intro s hs
    rcases List.mem_append.mp hs with hs | hs
    · exact hpre s hs
    · simp only [List.mem_cons, List.not_mem_nil, or_false] at hs
      rcases hs with rfl | rfl | rfl | rfl
      · exact hkind
      · exact hname
      · exact hkseg
      · exact hvseg
  have hjoin : ∀ c ∈ joinSegs (pre ++
      [kind, idxname, "{key}".toList, "{value}".toList]), ¬ c = '#' ∧ ¬ c = '?' := by
    intro c hc
    rcases mem_joinSegs _ c hc with rfl | ⟨s, hs, hcs⟩
    · exact ⟨by decide, by decide⟩
    · exact ⟨(hsegs s hs c hcs).2.1, (hsegs s hs c hcs).2.2⟩
  have hne : (pre ++ [kind, idxname, "{key}".toList, "{value}".toList]) ≠ [] := by
    simp
  have hsplit : splitOnChar '/' ('/' :: joinSegs (pre ++
      [kind, idxname, "{key}".toList, "{value}".toList])) =
      [] :: (pre ++ [kind, idxname, "{key}".toList, "{value}".toList]) := by
    have h0 := splitOnChar_append '/' [] (joinSegs (pre ++
      [kind, idxname, "{key}".toList, "{value}".toList])) (by simp)
    simp only [List.nil_append] at h0
    rw [h0, splitOnChar_joinSegs _ hne
      (fun s hs c hc => (hsegs s hs c hc).1)]
  have hstr : ¬ (String.mk ("http://".toList ++ host ++ '/' ::
      joinSegs (pre ++ [kind, idxname, "{key}".toList, "{value}".toList])) = "") := by
    intro hmk
    have hdata := congrArg String.data hmk
    have hlit : "http://".toList = ['h', 't', 't', 'p', ':', '/', '/'] := rfl
    simp [hlit] at hdata
  have htl : (String.mk ("http://".toList ++ host ++ '/' ::
      joinSegs (pre ++ [kind, idxname, "{key}".toList, "{value}".toList]))).toList =
      "http://".toList ++ host ++ '/' ::
        joinSegs (pre ++ [kind, idxname, "{key}".toList, "{value}".toList]) := rfl
  have hurl := urlsplitPath_http host _ hhost hjoin
  have hX : splitOnChar '/' (urlsplitPath (String.mk ("http://".toList ++
      host ++ '/' :: joinSegs (pre ++
        [kind, idxname, "{key}".toList, "{value}".toList]))).toList) =
      [] :: (pre ++ [kind, idxname, "{key}".toList, "{value}".toList]) := by
    rw [htl, hurl]
    exact hsplit
  simp only [parse_index_type]
  rw [if_neg hstr, hX,
    segAt4FromEnd_eq pre kind idxname "{key}".toList "{value}".toList]

/-- Witness for the amended C7 theorem at the standard template URI
`http://localhost:7474/db/data/index/node/people/{key}/{value}`. -/
theorem c7_index_type_position_witness :
    parse_index_type (.str (String.mk ("http://".toList ++
        "localhost:7474".toList ++ '/' ::
        joinSegs (["db".toList, "data".toList, "index".toList] ++
          ["node".toList, "people".toList, "{key}".toList, "{value}".toList])))) =
      .ok (some (String.mk "node".toList)) :=
  c7_index_type_position "localhost:7474".toList
    ["db".toList, "data".toList, "index".toList] "node".toList "people".toList
    (by decide) (by decide) (by decide) (by decide)
